import Mathlib

/-!
Verification of the exp10 optimization-log analysis pipeline
(`experiments/exp10/analyze.py`) against its specification.

Modelling conventions:
* Records are embedded as a structured type; the pandas `DataFrame` of the
  source is a `List EvalRecord` in row order (the source reads rows in file
  order and never reorders them).
* Python floats are embedded as `ℚ`.  Every constant appearing in the source
  (`0.02`, `1.1`, `1.2`, `0.05`, `0.2`) is an exact decimal, and every claim
  under study inspects only exact comparisons, counts and NaN-ness, so the
  rational embedding is faithful for them.
* IEEE NaN (which pandas produces for empty-window aggregates, for the
  sample standard deviation of a single observation, and for zero-variance
  Pearson correlations) is embedded as `none` in `Option ℚ`.
* Sample standard deviations are carried via their squares (the sample
  variance), which is exact in `ℚ`; `std = Real.sqrt var`, and a standard
  deviation is zero / NaN exactly when the carried variance is
  `some 0` / `none`, which is all the claims inspect.
* Operations that raise in the source (pandas `Series.idxmin` on an empty
  series, line 330 / 160) are embedded with `Option` / `Except`.
-/

/-- One row of the optimization log: the `eval` column, the `fitness`
column, and the parameter columns (accessed by name). -/
structure EvalRecord where
  eval : Int
  fitness : ℚ
  params : String → ℚ

/-- The log is the ordered list of rows of `optimize_log.csv`, in row
order (which the source relies on for `head` / `tail` / `iloc` slices). -/
abbrev Log := List EvalRecord

/-- The `fitness` column as a series. -/
def fitnesses (log : Log) : List ℚ := log.map (·.fitness)

/-- pandas `df.head(n)`: the first `min n len` rows. -/
def headN (n : Nat) (l : Log) : Log := l.take n

/-- pandas `df.tail(n)`: the last `min n len` rows. -/
def tailN (n : Nat) (l : Log) : Log := l.drop (l.length - n)

/-- pandas `Series.cummin` (source line 75, `best_so_far`), running tail:
the accumulator `cur` is the minimum seen so far. -/
def cumminAux (cur : ℚ) : List ℚ → List ℚ
  | [] => []
  | x :: xs => min cur x :: cumminAux (min cur x) xs

/-- pandas `Series.cummin`: element `i` is the minimum of elements
`0..i` inclusive. -/
def cummin : List ℚ → List ℚ
  | [] => []
  | x :: xs => x :: cumminAux x xs

/-- Source line 75: `best_so_far = df['fitness'].cummin()`. -/
def best_so_far (log : Log) : List ℚ := cummin (fitnesses log)

-- Helper: `List.min?` on `ℚ` is the least element of a nonempty list.
theorem min?_eq_some_iff_q {xs : List ℚ} {a : ℚ} :
    xs.min? = some a ↔ a ∈ xs ∧ ∀ b ∈ xs, a ≤ b := by
  haveI : Std.Antisymm ((· : ℚ) ≤ ·) := ⟨@fun _ _ h h' => le_antisymm h h'⟩
  exact List.min?_eq_some_iff (fun _ => le_refl _) (fun a b => min_choice a b)
    (fun _ _ _ => le_min_iff)

theorem cumminAux_length (c : ℚ) (l : List ℚ) : (cumminAux c l).length = l.length := by
  induction l generalizing c with
  | nil => rfl
  | cons x xs ih => simp [cumminAux, ih]

theorem cummin_length (l : List ℚ) : (cummin l).length = l.length := by
  cases l with
  | nil => rfl
  | cons x xs => simp [cummin, cumminAux_length]

theorem cumminAux_get? (c : ℚ) (l : List ℚ) (i : Nat) (h : i < l.length) :
    (cumminAux c l)[i]? = ((c :: l).take (i + 2)).min? := by
  induction l generalizing c i with
  | nil => simp at h
  | cons x xs ih =>
    cases i with
    | zero =>
      simp [cumminAux, List.min?_cons']
    | succ i =>
      have hx : i < xs.length := Nat.lt_of_succ_lt_succ h
      simp only [cumminAux, List.getElem?_cons_succ]
      rw [ih (min c x) i hx]
      have e1 : (c :: x :: xs).take (i + 1 + 2) = c :: x :: xs.take (i + 1) := by
        simp [List.take_succ_cons]
      have e2 : (min c x :: xs).take (i + 2) = min c x :: xs.take (i + 1) := by
        simp [List.take_succ_cons]
      rw [e1, e2, List.min?_cons', List.min?_cons', List.foldl_cons]

theorem cummin_get? (l : List ℚ) (i : Nat) (h : i < l.length) :
    (cummin l)[i]? = (l.take (i + 1)).min? := by
  cases l with
  | nil => simp at h
  | cons x xs =>
    cases i with
    | zero => simp [cummin, List.min?_cons']
    | succ i =>
      simp only [cummin, List.getElem?_cons_succ]
      rw [cumminAux_get? x xs i (Nat.lt_of_succ_lt_succ h)]

theorem cumminAux_le (c : ℚ) (l : List ℚ) : ∀ y ∈ cumminAux c l, y ≤ c := by
  induction l generalizing c with
  | nil => simp [cumminAux]
  | cons x xs ih =>
    intro y hy
    simp only [cumminAux, List.mem_cons] at hy
    rcases hy with rfl | hy
    · exact min_le_left _ _
    · exact le_trans (ih (min c x) y hy) (min_le_left _ _)

theorem cumminAux_pairwise (c : ℚ) (l : List ℚ) :
    (cumminAux c l).Pairwise (· ≥ ·) := by
  induction l generalizing c with
  | nil => simp [cumminAux]
  | cons x xs ih =>
    simp only [cumminAux, List.pairwise_cons]
    exact ⟨fun y hy => cumminAux_le (min c x) xs y hy, ih (min c x)⟩

theorem cummin_pairwise (l : List ℚ) : (cummin l).Pairwise (· ≥ ·) := by
  cases l with
  | nil => simp [cummin]
  | cons x xs =>
    simp only [cummin, List.pairwise_cons]
    exact ⟨fun y hy => le_trans (cumminAux_le x xs y hy) (le_refl x),
      cumminAux_pairwise x xs⟩

/-- C6: for every log, `bestSoFar()` has the same length as the log, its
element `i` is the minimum fitness over records `0..i` inclusive (stated as:
the `min?` of the prefix of length `i+1` of the fitness series), and the
sequence is non-increasing (every later element is `≤` every earlier one). -/
theorem best_so_far_spec (log : Log) :
    (best_so_far log).length = log.length ∧
    (∀ i, i < log.length →
      (best_so_far log)[i]? = ((fitnesses log).take (i + 1)).min?) ∧
    (best_so_far log).Pairwise (· ≥ ·) := by
  refine ⟨?_, ?_, cummin_pairwise _⟩
  · simp [best_so_far, cummin_length, fitnesses]
  · intro i hi
    exact cummin_get? (fitnesses log) i (by simpa [fitnesses] using hi)

/-- Witness for C6 on the scenario log of spec §8:
fitness series `[-100, -150, -90]`, `bestSoFar = [-100, -150, -150]`. -/
theorem best_so_far_spec_witness :
    (best_so_far [⟨1, -100, fun _ => 0⟩, ⟨2, -150, fun _ => 0⟩, ⟨3, -90, fun _ => 0⟩])[2]? =
      ((fitnesses [⟨1, -100, fun _ => 0⟩, ⟨2, -150, fun _ => 0⟩, ⟨3, -90, fun _ => 0⟩]).take 3).min? :=
  (best_so_far_spec _).2.1 2 (by decide)

/-! ### Survival estimator (source §2, lines 101-145 and 362-379) -/

/-- Source line 110: `approx_survival_ticks = -fitness / 1.1`. -/
def approx_survival_ticks (f : ℚ) : ℚ := -f / 1.1

/-- Source line 111: `approx_survival_sec = approx_survival_ticks * DT`. -/
def approx_survival_sec (dt f : ℚ) : ℚ := approx_survival_ticks f * dt

/-- Source line 116: `likely_hit_cap = fitness <= -MAX_TICKS` (conservative
tier, assumes quality between 0 and 1). -/
def likely_hit_cap (maxTicks f : ℚ) : Bool := f ≤ -maxTicks

/-- Source line 365: the generous tier, `fitness <= -MAX_TICKS * 1.2`
(cap hit even at maximal quality). -/
def definitely_hit_cap_max_quality (maxTicks f : ℚ) : Bool := f ≤ -maxTicks * 1.2

/-- C7: a record is `likelyHitCap` exactly when `fitness ≤ -maxTicks`, is
`definitelyHitCapAtMaxQuality` exactly when `fitness ≤ -maxTicks * 1.2`, and
for positive `maxTicks` the generous tier implies the conservative one. -/
theorem hit_cap_tiers (maxTicks f : ℚ) (h : 0 < maxTicks) :
    (likely_hit_cap maxTicks f = true ↔ f ≤ -maxTicks) ∧
    (definitely_hit_cap_max_quality maxTicks f = true ↔ f ≤ -maxTicks * 1.2) ∧
    (definitely_hit_cap_max_quality maxTicks f = true → likely_hit_cap maxTicks f = true) := by
  refine ⟨by simp [likely_hit_cap], by simp [definitely_hit_cap_max_quality], ?_⟩
  simp only [likely_hit_cap, definitely_hit_cap_max_quality, decide_eq_true_eq]
  intro hf
  nlinarith

/-- Witness for C7: the spec-§8 scenario record with `fitness = -3600000`
and `maxTicks = 3000000` is in both tiers. -/
theorem hit_cap_tiers_witness :
    (0 : ℚ) < 3000000 ∧ likely_hit_cap 3000000 (-3600000) = true :=
  ⟨by norm_num,
    (hit_cap_tiers 3000000 (-3600000) (by norm_num)).2.2
      (by norm_num [definitely_hit_cap_max_quality])⟩

/-! ### Convergence analyzer (source lines 329-360) -/

/-- pandas `Series.idxmin` (source lines 160, 330): the position of the
first occurrence of the series minimum; `none` on an empty series, where
pandas raises `ValueError`. -/
def idxmin (xs : List ℚ) : Option Nat :=
  xs.min?.map fun m => xs.findIdx (fun x => x == m)

inductive ConvergenceVerdict where
  | largelyConverged
  | stillImproving
  | convergedEarly
deriving DecidableEq

/-- Source lines 341-360: the verdict always compares `df.head(100)` with
`df.tail(100)` (the window is the constant 100, whatever the log length).
On an empty log both minima are NaN and every comparison with NaN is false
in Python, so control falls through to the final `else`; the `none` branch
encodes that path. -/
def convergence_verdict (log : Log) : ConvergenceVerdict :=
  match (fitnesses (headN 100 log)).min?, (fitnesses (tailN 100 log)).min? with
  | some m1, some m2 =>
    if |m1 - m2| < |m1| * 0.02 then .largelyConverged
    else if 0 < m1 - m2 then .stillImproving
    else .convergedEarly
  | _, _ => .convergedEarly

/-- Definition following the words of claim C2 (and spec §4.3), for
comparison with the source's `convergence_verdict`: the half size is 100
when the log has at least 200 records and `len / 2` (integer division)
otherwise; `none` when a half is empty. -/
def spec_convergence_verdict (log : Log) : Option ConvergenceVerdict :=
  let halfSize := if 200 ≤ log.length then 100 else log.length / 2
  match (fitnesses (headN halfSize log)).min?, (fitnesses (tailN halfSize log)).min? with
  | some m1, some m2 =>
    some (if |m1 - m2| < 0.02 * |m1| then .largelyConverged
      else if 0 < m1 - m2 then .stillImproving
      else .convergedEarly)
  | _, _ => none

/-- C2 counterexample: on the two-record log with fitness series `[0, -10]`
the source compares `head(100)` with `tail(100)` — both are the whole log,
so the improvement is `0` and it reports LARGELY_CONVERGED — while the
claim's `len/2` rule compares `[0]` with `[-10]` and yields STILL_IMPROVING. -/
theorem convergence_verdict_cex :
    convergence_verdict [⟨1, 0, fun _ => 0⟩, ⟨2, -10, fun _ => 0⟩] =
      ConvergenceVerdict.largelyConverged ∧
    spec_convergence_verdict [⟨1, 0, fun _ => 0⟩, ⟨2, -10, fun _ => 0⟩] =
      some ConvergenceVerdict.stillImproving ∧
    ConvergenceVerdict.largelyConverged ≠ ConvergenceVerdict.stillImproving := by
  refine ⟨?_, ?_, by simp⟩
  · norm_num [convergence_verdict, headN, tailN, fitnesses, List.min?_cons', min_def]
  · norm_num [spec_convergence_verdict, headN, tailN, fitnesses, List.min?_cons', min_def]

/-- C2 amended: for every log with at least one record, the verdict is
computed from `firstWindow = head(100)` and `secondWindow = tail(100)`
(always 100, i.e. `min(100, len)` records each — never `len/2`); with
`improvement = min(firstWindow) - min(secondWindow)` the verdict is
LARGELY_CONVERGED when `|improvement| < 0.02 * |min(firstWindow)|`, else
STILL_IMPROVING when `improvement > 0`, else CONVERGED_EARLY. -/
theorem convergence_verdict_amended (log : Log) (h : 1 ≤ log.length) :
    ∃ m1 m2, (fitnesses (log.take 100)).min? = some m1 ∧
      (fitnesses (log.drop (log.length - 100))).min? = some m2 ∧
      (convergence_verdict log = .largelyConverged ↔ |m1 - m2| < 0.02 * |m1|) ∧
      (convergence_verdict log = .stillImproving ↔
        ¬ |m1 - m2| < 0.02 * |m1| ∧ 0 < m1 - m2) ∧
      (convergence_verdict log = .convergedEarly ↔
        ¬ |m1 - m2| < 0.02 * |m1| ∧ m1 - m2 ≤ 0) := by
  obtain ⟨m1, hm1⟩ : ∃ m1, (fitnesses (headN 100 log)).min? = some m1 := by
    cases hl : fitnesses (headN 100 log) with
    | nil =>
      exfalso
      have := congrArg List.length hl
      simp only [fitnesses, headN, List.length_map, List.length_take,
        List.length_nil] at this
      omega
    | cons a l => exact ⟨_, rfl⟩
  obtain ⟨m2, hm2⟩ : ∃ m2, (fitnesses (tailN 100 log)).min? = some m2 := by
    cases hl : fitnesses (tailN 100 log) with
    | nil =>
      exfalso
      have := congrArg List.length hl
      simp only [fitnesses, tailN, List.length_map, List.length_drop,
        List.length_nil] at this
      omega
    | cons a l => exact ⟨_, rfl⟩
  have hv : convergence_verdict log =
      (if |m1 - m2| < |m1| * 0.02 then ConvergenceVerdict.largelyConverged
        else if 0 < m1 - m2 then .stillImproving else .convergedEarly) := by
    unfold convergence_verdict
    rw [hm1, hm2]
  rw [mul_comm (|m1|) (0.02 : ℚ)] at hv
  refine ⟨m1, m2, hm1, hm2, ?_⟩
  by_cases hA : |m1 - m2| < 0.02 * |m1|
  · rw [if_pos hA] at hv
    simp [hv, hA]
  · rw [if_neg hA] at hv
    by_cases hB : 0 < m1 - m2
    · rw [if_pos hB] at hv
      simp [hv, hA, sub_pos.mp hB]
    · rw [if_neg hB] at hv
      simp [hv, hA, hB, sub_nonpos.mp (not_lt.mp hB)]

/-- Witness for C2's amended theorem on the spec-§8 scenario log
(fitness series `[-100, -150, -90]`, fewer than 200 records: both windows
are the whole log, the improvement is 0 and the verdict is
LARGELY_CONVERGED). -/
theorem convergence_verdict_amended_witness :
    1 ≤ ([⟨1, -100, fun _ => 0⟩, ⟨2, -150, fun _ => 0⟩, ⟨3, -90, fun _ => 0⟩] : Log).length ∧
    ∃ m1 m2,
      (fitnesses (([⟨1, -100, fun _ => 0⟩, ⟨2, -150, fun _ => 0⟩, ⟨3, -90, fun _ => 0⟩] : Log).take 100)).min? = some m1 ∧
      (fitnesses (([⟨1, -100, fun _ => 0⟩, ⟨2, -150, fun _ => 0⟩, ⟨3, -90, fun _ => 0⟩] : Log).drop
        (([⟨1, -100, fun _ => 0⟩, ⟨2, -150, fun _ => 0⟩, ⟨3, -90, fun _ => 0⟩] : Log).length - 100))).min? = some m2 ∧
      (convergence_verdict [⟨1, -100, fun _ => 0⟩, ⟨2, -150, fun _ => 0⟩, ⟨3, -90, fun _ => 0⟩] =
        ConvergenceVerdict.largelyConverged ↔ |m1 - m2| < 0.02 * |m1|) ∧
      (convergence_verdict [⟨1, -100, fun _ => 0⟩, ⟨2, -150, fun _ => 0⟩, ⟨3, -90, fun _ => 0⟩] =
        ConvergenceVerdict.stillImproving ↔ ¬ |m1 - m2| < 0.02 * |m1| ∧ 0 < m1 - m2) ∧
      (convergence_verdict [⟨1, -100, fun _ => 0⟩, ⟨2, -150, fun _ => 0⟩, ⟨3, -90, fun _ => 0⟩] =
        ConvergenceVerdict.convergedEarly ↔ ¬ |m1 - m2| < 0.02 * |m1| ∧ m1 - m2 ≤ 0) :=
  ⟨by simp, convergence_verdict_amended _ (by simp)⟩

/-! ### Best-so-far checkpoints (source lines 335-338) -/

/-- Source lines 335-338: the four best-so-far checkpoint lines of the
report, printed unconditionally whatever the log length.  The value at
count k in 50/100/150 is `df.head(k)['fitness'].min()`; the 200 line is
the whole-series minimum `df['fitness'].min()`. -/
def best_so_far_checkpoints (log : Log) : List (Nat × Option ℚ) :=
  [(50, (fitnesses (headN 50 log)).min?),
   (100, (fitnesses (headN 100 log)).min?),
   (150, (fitnesses (headN 150 log)).min?),
   (200, (fitnesses log).min?)]

/-- C5 counterexample: on a one-record log the source reports all four
checkpoints (each computed over the truncated `head(k)`, i.e. the whole
log), whereas the claim says every checkpoint count exceeding the log
length is omitted — which would leave zero checkpoints here. -/
theorem checkpoints_cex :
    (best_so_far_checkpoints [⟨1, -5, fun _ => 0⟩]).length = 4 ∧
    ([50, 100, 150, 200].filter
      (fun k => decide (k ≤ ([⟨1, (-5 : ℚ), fun _ => 0⟩] : Log).length))) = [] := by
  exact ⟨rfl, rfl⟩

/-- C5 amended: the report always contains all four checkpoint counts
50, 100, 150, 200, in order; the value at counts 50/100/150 is the minimum
fitness over the first `min(k, len)` records and the 200-line value is the
whole-log minimum; a checkpoint count at or beyond the log length is not
omitted (and not extrapolated) — it is computed over the whole shorter log,
hence equals the global minimum. -/
theorem checkpoints_spec (log : Log) :
    (best_so_far_checkpoints log).map Prod.fst = [50, 100, 150, 200] ∧
    best_so_far_checkpoints log =
      [(50, ((fitnesses log).take 50).min?), (100, ((fitnesses log).take 100).min?),
       (150, ((fitnesses log).take 150).min?), (200, (fitnesses log).min?)] ∧
    (∀ k v, (k, v) ∈ best_so_far_checkpoints log → log.length ≤ k →
      v = (fitnesses log).min?) := by
  refine ⟨rfl, ?_, ?_⟩
  · simp [best_so_far_checkpoints, headN, fitnesses, List.map_take]
  · intro k v hmem hk
    have htake : ∀ n, log.length ≤ n → headN n log = log := fun n hn =>
      List.take_of_length_le hn
    simp only [best_so_far_checkpoints, List.mem_cons, List.mem_singleton,
      List.not_mem_nil, or_false, Prod.mk.injEq] at hmem
    rcases hmem with ⟨rfl, rfl⟩ | ⟨rfl, rfl⟩ | ⟨rfl, rfl⟩ | ⟨rfl, rfl⟩ <;>
      first
      | rfl
      | rw [htake _ hk]
  
/-- Witness for C5's amended theorem: on the one-record log, the checkpoint
at count 50 (which exceeds the log length) equals the whole-log minimum. -/
theorem checkpoints_spec_witness :
    (fitnesses (headN 50 ([⟨1, -5, fun _ => 0⟩] : Log))).min? =
      (fitnesses ([⟨1, -5, fun _ => 0⟩] : Log)).min? :=
  (checkpoints_spec _).2.2 50 _ (by simp [best_so_far_checkpoints]) (by simp)

/-! ### Parameter convergence classifier (source lines 148-194) -/

/-- pandas `Series.mean`: NaN (`none`) on an empty series. -/
def meanQ (xs : List ℚ) : Option ℚ :=
  if xs.length = 0 then none else some (xs.sum / xs.length)

/-- pandas `Series.std` with the default `ddof = 1` (sample standard
deviation), carried as its square — the sample variance, which is exact in
`ℚ` (`std` is its square root; the claims inspect only whether the standard
deviation is zero or NaN, and the variance determines both).  It is `none`
(NaN) when the series has fewer than two entries: in particular pandas
returns NaN, not 0, for a single observation (`0/0` with `ddof = 1`). -/
def sample_var (xs : List ℚ) : Option ℚ :=
  if xs.length ≤ 1 then none
  else some ((xs.map (fun x => (x - xs.sum / xs.length) ^ 2)).sum / ((xs.length : ℚ) - 1))

/-- Source line 150: `last20 = df.tail(20)`. -/
def last20 (log : Log) : Log := tailN 20 log

/-- Source line 157, squared: `std_last20 = last20[p].std()`. -/
def std_last20_sq (log : Log) (p : String) : Option ℚ :=
  sample_var ((last20 log).map (fun r => r.params p))

/-- Source line 164, squared:
`norm_std = std_last20 / rng if rng > 0 else 0`; a NaN standard deviation
propagates through the division when `rng > 0`. -/
def norm_std_sq (lo hi : ℚ) (log : Log) (p : String) : Option ℚ :=
  if 0 < hi - lo then (std_last20_sq log p).map (fun v => v / (hi - lo) ^ 2)
  else some 0

/-- C3 counterexample: on a one-record log the tail-20 window has exactly
one value, and the source's `std()` (pandas, `ddof = 1`) is NaN there — not
the claimed 0 — so `norm_std` is NaN as well, not 0. -/
theorem std20_single_record_cex :
    std_last20_sq [⟨1, -5, fun _ => 0.5⟩] "p" = none ∧
    norm_std_sq 0 1 [⟨1, -5, fun _ => 0.5⟩] "p" = none ∧
    (none : Option ℚ) ≠ some 0 := by
  refine ⟨rfl, ?_, by simp⟩
  norm_num [norm_std_sq, std_last20_sq, last20, tailN, sample_var]

/-- C3 amended: `std20` is the sample standard deviation (pandas default
`ddof = 1`) of the tail window of `min(20, len)` values; when that window
contains exactly one record `std20` is NaN — not 0 — and hence, for
non-degenerate bounds, `normStd = std20 / (upper - lower)` is NaN for a
one-record log; for windows of at least two values `std20` is defined,
non-negative, and `normStd` is `std20` divided by the bound range. -/
theorem std20_spec (log : Log) (p : String) (lo hi : ℚ) (hlo : lo < hi) :
    (last20 log).length = min 20 log.length ∧
    (log.length = 1 → std_last20_sq log p = none ∧ norm_std_sq lo hi log p = none) ∧
    (2 ≤ log.length → ∃ v, std_last20_sq log p = some v ∧ 0 ≤ v ∧
      norm_std_sq lo hi log p = some (v / (hi - lo) ^ 2)) := by
  have hlen : (last20 log).length = min 20 log.length := by
    simp only [last20, tailN, List.length_drop]
    omega
  have hrng : (0 : ℚ) < hi - lo := sub_pos.mpr hlo
  refine ⟨hlen, ?_, ?_⟩
  · intro h1
    have hstd : std_last20_sq log p = none := by
      unfold std_last20_sq sample_var
      rw [if_pos (by simp [hlen, h1])]
    refine ⟨hstd, ?_⟩
    unfold norm_std_sq
    rw [if_pos hrng, hstd]
    rfl
  · intro h2
    have hw : ¬ ((last20 log).map (fun r => r.params p)).length ≤ 1 := by
      simp only [List.length_map, hlen]
      omega
    have hstd : std_last20_sq log p = some (((((last20 log).map (fun r => r.params p)).map
        (fun x => (x - ((last20 log).map (fun r => r.params p)).sum /
          (((last20 log).map (fun r => r.params p)).length : ℚ)) ^ 2)).sum) /
        ((((last20 log).map (fun r => r.params p)).length : ℚ) - 1)) := by
      unfold std_last20_sq sample_var
      rw [if_neg hw]
    refine ⟨_, hstd, ?_, ?_⟩
    · apply div_nonneg
      · apply List.sum_nonneg
        intro y hy
        simp only [List.mem_map] at hy
        obtain ⟨x, _, rfl⟩ := hy
        positivity
      · have : (2 : ℚ) ≤ (((last20 log).map (fun r => r.params p)).length : ℚ) := by
          exact_mod_cast (by simpa [hlen] using (by omega : 2 ≤ min 20 log.length))
        linarith
    · unfold norm_std_sq
      rw [if_pos hrng, hstd]
      rfl

/-- Witness for C3's amended theorem on a two-record log with constant
parameter value 0.5 and bounds (0, 1). -/
theorem std20_spec_witness :
    (0 : ℚ) < 1 ∧ ∃ v,
      std_last20_sq [⟨1, -5, fun _ => 0.5⟩, ⟨2, -6, fun _ => 0.5⟩] "p" = some v ∧ 0 ≤ v ∧
      norm_std_sq 0 1 [⟨1, -5, fun _ => 0.5⟩, ⟨2, -6, fun _ => 0.5⟩] "p" =
        some (v / ((1 : ℚ) - 0) ^ 2) :=
  ⟨by norm_num,
    (std20_spec [⟨1, -5, fun _ => 0.5⟩, ⟨2, -6, fun _ => 0.5⟩] "p" 0 1 (by norm_num)).2.2
      (by simp)⟩

/-! ### The globally best record (source lines 159-161, 330, 456-461) -/

theorem exists_min?_of_ne_nil {xs : List ℚ} (h : xs ≠ []) : ∃ m, xs.min? = some m := by
  cases xs with
  | nil => exact absurd rfl h
  | cons a l => exact ⟨_, rfl⟩

/-- Characterization of `idxmin`: when defined it returns the position of
the first occurrence of the series minimum — earlier positions hold
strictly larger values. -/
theorem idxmin_spec {xs : List ℚ} {i : Nat} (h : idxmin xs = some i) :
    ∃ m, xs.min? = some m ∧ xs[i]? = some m ∧
      ∀ j y, j < i → xs[j]? = some y → m < y := by
  unfold idxmin at h
  obtain ⟨m, hm, hfi⟩ := Option.map_eq_some'.mp h
  obtain ⟨hmem, hle⟩ := min?_eq_some_iff_q.mp hm
  have hex : ∃ x ∈ xs, ((fun x => x == m) x : Bool) := ⟨m, hmem, by simp⟩
  have hlt : xs.findIdx (fun x => x == m) < xs.length :=
    List.findIdx_lt_length_of_exists hex
  subst hfi
  refine ⟨m, hm, ?_, ?_⟩
  · have hp := List.findIdx_getElem (p := fun x => x == m) (w := hlt)
    simp only [beq_iff_eq] at hp
    rw [List.getElem?_eq_getElem hlt, hp]
  · intro j y hj hy
    have hjlen : j < xs.length := lt_trans hj hlt
    have hne := List.not_of_lt_findIdx hj
    simp only [beq_eq_false_iff_ne, ne_eq] at hne
    rw [List.getElem?_eq_getElem hjlen, Option.some_inj] at hy
    have hmle : m ≤ y := hy ▸ hle _ (List.getElem_mem hjlen)
    exact lt_of_le_of_ne hmle fun e => hne (by rw [hy, ← e])

/-- Source line 330 (and 441, 447, 456-461):
`best_row = df.loc[df['fitness'].idxmin()]`. -/
def best_row (log : Log) : Option EvalRecord :=
  (idxmin (fitnesses log)).bind fun i => log[i]?

/-- Source lines 159-161 (recomputed identically at 219 and 299): the
classification table's 'best' column,
`best_idx = df['fitness'].idxmin(); best_val = df.loc[best_idx, p]`. -/
def classifier_best_val (log : Log) (p : String) : Option ℚ :=
  (idxmin (fitnesses log)).bind fun i => (log[i]?).map fun r => r.params p

/-- Source lines 426-431: the new-parameter summary's signed shift of the
best value from its default as a percentage of the bound range
(`shift_from_default = (best_val - default_val) / rng * 100`, where
`best_val` is conv_df's 'best' column, i.e. `df.loc[best_idx, p]`). -/
def new_param_shift (lo hi dflt : ℚ) (log : Log) (p : String) : Option ℚ :=
  (classifier_best_val log p).map fun bv => (bv - dflt) / (hi - lo) * 100

/-- Source lines 456-461: the best-config summary row for parameter `p`:
`val = best_row[p]`, `norm = (val - lo) / (hi - lo) * 100`. -/
def best_config_entry (lo hi : ℚ) (log : Log) (p : String) : Option (ℚ × ℚ) :=
  (best_row log).map fun r => (r.params p, (r.params p - lo) / (hi - lo) * 100)

/-- C10: on every non-empty log there is a single record — the one at the
first position attaining the globally minimal fitness (earliest position,
hence earliest `evalIndex`, on ties) — from which every reported "best"
value is taken: the classification rows' best values, the new-parameter
shifts, and the best-config summary entries are all projections of that one
record, so the reported best configuration is an actually-evaluated
parameter vector, never a mixture of records. -/
theorem best_values_single_record (log : Log) (h : log ≠ []) :
    ∃ i r, idxmin (fitnesses log) = some i ∧ log[i]? = some r ∧
      (fitnesses log).min? = some r.fitness ∧
      (∀ j s, j < i → log[j]? = some s → r.fitness < s.fitness) ∧
      best_row log = some r ∧
      (∀ p, classifier_best_val log p = some (r.params p)) ∧
      (∀ p lo hi dflt, new_param_shift lo hi dflt log p =
        some ((r.params p - dflt) / (hi - lo) * 100)) ∧
      (∀ p lo hi, best_config_entry lo hi log p =
        some (r.params p, (r.params p - lo) / (hi - lo) * 100)) := by
  have hne : fitnesses log ≠ [] := by
    simpa [fitnesses] using h
  obtain ⟨m, hm⟩ := exists_min?_of_ne_nil hne
  have hidx : idxmin (fitnesses log) =
      some ((fitnesses log).findIdx (fun x => x == m)) := by
    unfold idxmin
    rw [hm]
    rfl
  obtain ⟨m', hm', hget, hfirst⟩ := idxmin_spec hidx
  rw [hm] at hm'
  injection hm' with hm'
  subst hm'
  set i := (fitnesses log).findIdx (fun x => x == m) with hidef
  have hmap : (fitnesses log)[i]? = (log[i]?).map (·.fitness) := by
    simp [fitnesses]
  rw [hmap] at hget
  cases hr : log[i]? with
  | none => rw [hr] at hget; exact absurd hget (by simp)
  | some r =>
    rw [hr] at hget
    have hrf : r.fitness = m := by
      simpa using hget
    refine ⟨i, r, hidx, hr, by rw [hm, hrf], ?_, ?_, ?_, ?_, ?_⟩
    · intro j s hj hs
      have : (fitnesses log)[j]? = some s.fitness := by
        simp [fitnesses, hs]
      rw [hrf]
      exact hfirst j s.fitness hj this
    · unfold best_row
      rw [hidx, Option.some_bind, hr]
    · intro p
      unfold classifier_best_val
      rw [hidx, Option.some_bind, hr]
      rfl
    · intro p lo hi dflt
      unfold new_param_shift classifier_best_val
      rw [hidx, Option.some_bind, hr]
      rfl
    · intro p lo hi
      unfold best_config_entry best_row
      rw [hidx, Option.some_bind, hr]
      rfl

/-- The scenario log of spec §8: three records, no parameters varied,
fitness series `[-100, -150, -90]`. -/
def scenarioLog : Log :=
  [⟨1, -100, fun _ => 0.5⟩, ⟨2, -150, fun _ => 0.5⟩, ⟨3, -90, fun _ => 0.5⟩]

/-- Witness for C10 on the spec-§8 scenario log (global best is the second
record, fitness -150). -/
theorem best_values_single_record_witness :
    ∃ i r, idxmin (fitnesses scenarioLog) = some i ∧ scenarioLog[i]? = some r ∧
      (fitnesses scenarioLog).min? = some r.fitness ∧
      (∀ j s, j < i → scenarioLog[j]? = some s → r.fitness < s.fitness) ∧
      best_row scenarioLog = some r ∧
      (∀ p, classifier_best_val scenarioLog p = some (r.params p)) ∧
      (∀ p lo hi dflt, new_param_shift lo hi dflt scenarioLog p =
        some ((r.params p - dflt) / (hi - lo) * 100)) ∧
      (∀ p lo hi, best_config_entry lo hi scenarioLog p =
        some (r.params p, (r.params p - lo) / (hi - lo) * 100)) :=
  best_values_single_record scenarioLog (by simp [scenarioLog])

/-! ### The best-quantile subset (source lines 240-247) -/

/-- Source lines 241-242: `top_frac = 0.20; top_n = max(1, int(len(df) * top_frac))`.
Python's `int()` truncates toward zero.  In the source, `len * 0.2` is binary
floating point and lies a hair above the exact `len/5` (`0.2` rounds up as a
double), so for every feasible log size the truncation equals the
exact-rational floor embedded here. -/
def top_n (log : Log) : Nat := max 1 (Int.toNat ⌊(log.length : ℚ) * 0.2⌋)

/-- Definition following the words of claim C4 (and spec §4.6), for
comparison with the source's `top_n`: `max(1, ceil(0.2 * len))`. -/
def spec_top_n (log : Log) : Nat := max 1 (Int.toNat ⌈(log.length : ℚ) * 0.2⌉)

/-- The ordering used by `df.nsmallest(n, 'fitness')` with the default
`keep='first'`: fitness ascending, ties kept in original row order; rows
are tagged with their position. -/
def nsmallestLe (a b : Nat × EvalRecord) : Bool :=
  decide (a.2.fitness < b.2.fitness ∨ (a.2.fitness = b.2.fitness ∧ a.1 ≤ b.1))

/-- Source line 243: `top_df = df.nsmallest(top_n, 'fitness')`. -/
def top_df (log : Log) : List (Nat × EvalRecord) :=
  (log.enum.mergeSort nsmallestLe).take (top_n log)

theorem top_n_eq (log : Log) : top_n log = max 1 (log.length / 5) := by
  unfold top_n
  congr 1
  have h02 : (0.2 : ℚ) = (1 : ℚ) / 5 := by norm_num
  have hcast : ((log.length : ℚ)) * ((1 : ℚ) / 5) = ((log.length : ℕ) : ℚ) / ((5 : ℕ) : ℚ) := by
    push_cast
    ring
  rw [h02, hcast, Rat.floor_natCast_div_natCast]
  omega

theorem nsmallestLe_trans (a b c : Nat × EvalRecord) :
    nsmallestLe a b → nsmallestLe b c → nsmallestLe a c := by
  simp only [nsmallestLe, decide_eq_true_eq]
  intro hab hbc
  rcases hab with h1 | ⟨e1, i1⟩ <;> rcases hbc with h2 | ⟨e2, i2⟩
  · exact Or.inl (lt_trans h1 h2)
  · exact Or.inl (e2 ▸ h1)
  · exact Or.inl (by rw [e1]; exact h2)
  · exact Or.inr ⟨e1.trans e2, le_trans i1 i2⟩

theorem nsmallestLe_total (a b : Nat × EvalRecord) :
    nsmallestLe a b || nsmallestLe b a := by
  simp only [nsmallestLe, Bool.or_eq_true, decide_eq_true_eq]
  rcases lt_trichotomy a.2.fitness b.2.fitness with h | h | h
  · exact Or.inl (Or.inl h)
  · rcases le_total a.1 b.1 with hi | hi
    · exact Or.inl (Or.inr ⟨h, hi⟩)
    · exact Or.inr (Or.inr ⟨h.symm, hi⟩)
  · exact Or.inr (Or.inl h)

theorem enum_nodup (l : Log) : l.enum.Nodup := by
  have h : (l.enum.map Prod.fst).Nodup := by
    rw [List.enum_map_fst]
    exact List.nodup_range _
  exact h.of_map _

/-- A seven-record log with distinct fitness values. -/
def log7 : Log :=
  [⟨1, -1, fun _ => 0⟩, ⟨2, -2, fun _ => 0⟩, ⟨3, -3, fun _ => 0⟩,
   ⟨4, -4, fun _ => 0⟩, ⟨5, -5, fun _ => 0⟩, ⟨6, -6, fun _ => 0⟩,
   ⟨7, -7, fun _ => 0⟩]

/-- C4 counterexample: on a 7-record log the source keeps
`max(1, int(7 * 0.2)) = 1` record — `int()` truncates — while the claim's
`max(1, ceil(0.2 * 7)) = 2`. -/
theorem top_quantile_count_cex :
    (top_df log7).length = 1 ∧ spec_top_n log7 = 2 ∧ (1 : Nat) ≠ 2 := by
  have hlen : log7.length = 7 := rfl
  have htn : top_n log7 = 1 := by
    rw [top_n_eq, hlen]
    decide
  refine ⟨?_, ?_, by decide⟩
  · simp [top_df, List.length_take, List.length_mergeSort, List.enum_length, htn, hlen]
  · have hc : (⌈(7 : ℚ) * 0.2⌉ : ℤ) = 2 := by
      rw [Int.ceil_eq_iff]
      constructor <;> norm_num
    simp only [spec_top_n, hlen, Nat.cast_ofNat, hc]
    decide

/-- C4 amended: for every non-empty log the best-quantile subset used by
the correlation analyzer contains exactly `max(1, floor(0.2 * len))`
records (the source truncates, it does not round up), namely records of
the log forming an initial segment of the fitness-then-position ordering:
the log's position-tagged rows split (as a permutation) into the selected
subset and a remainder, and every selected row either has strictly smaller
fitness than every remainder row or equal fitness and a strictly earlier
position (hence, the log being ordered by `evalIndex`, an earlier
evaluation). -/
theorem top_quantile_spec (log : Log) (h : log ≠ []) :
    top_n log = max 1 (log.length / 5) ∧
    (top_df log).length = top_n log ∧
    (∀ a ∈ top_df log, log[a.1]? = some a.2) ∧
    (∃ rest, log.enum.Perm (top_df log ++ rest) ∧
      ∀ a ∈ top_df log, ∀ b ∈ rest,
        a.2.fitness < b.2.fitness ∨ (a.2.fitness = b.2.fitness ∧ a.1 < b.1)) := by
  have hpos : 1 ≤ log.length := by
    cases log with
    | nil => exact absurd rfl h
    | cons x xs => simp
  have htn_le : top_n log ≤ log.length := by
    rw [top_n_eq]
    have := Nat.div_le_self log.length 5
    omega
  have hperm := List.mergeSort_perm log.enum nsmallestLe
  have hsortlen : (log.enum.mergeSort nsmallestLe).length = log.length := by
    rw [hperm.length_eq, List.enum_length]
  refine ⟨top_n_eq log, ?_, ?_, ?_⟩
  · rw [top_df, List.length_take, hsortlen]
    omega
  · intro a ha
    have hmem : a ∈ log.enum := hperm.mem_iff.mp (List.mem_of_mem_take ha)
    obtain ⟨i, r⟩ := a
    exact List.mk_mem_enum_iff_getElem?.mp hmem
  · refine ⟨(log.enum.mergeSort nsmallestLe).drop (top_n log), ?_, ?_⟩
    · rw [top_df, List.take_append_drop]
      exact hperm.symm
    · intro a ha b hb
      have hsorted : (log.enum.mergeSort nsmallestLe).Pairwise (nsmallestLe · ·) :=
        List.sorted_mergeSort nsmallestLe_trans nsmallestLe_total log.enum
      have hsplit : (log.enum.mergeSort nsmallestLe) =
          top_df log ++ (log.enum.mergeSort nsmallestLe).drop (top_n log) :=
        (List.take_append_drop _ _).symm
      have hpw := hsplit ▸ hsorted
      have hle : nsmallestLe a b := (List.pairwise_append.mp hpw).2.2 a ha b hb
      have hnd : (top_df log ++ (log.enum.mergeSort nsmallestLe).drop (top_n log)).Nodup :=
        hsplit ▸ (hperm.nodup_iff.mpr (enum_nodup log))
      have hab : a ≠ b := by
        intro e
        obtain ⟨-, -, hdisj⟩ := List.nodup_append.mp hnd
        exact hdisj ha (e ▸ hb)
      simp only [nsmallestLe, decide_eq_true_eq] at hle
      rcases hle with hlt | ⟨heq, hile⟩
      · exact Or.inl hlt
      · refine Or.inr ⟨heq, lt_of_le_of_ne hile ?_⟩
        intro hidx
        apply hab
        have haenum : a ∈ log.enum := hperm.mem_iff.mp (List.mem_of_mem_take ha)
        have hbenum : b ∈ log.enum := hperm.mem_iff.mp (List.mem_of_mem_drop hb)
        obtain ⟨i, r⟩ := a
        obtain ⟨j, s⟩ := b
        simp only at hidx
        subst hidx
        have h1 := List.mk_mem_enum_iff_getElem?.mp haenum
        have h2 := List.mk_mem_enum_iff_getElem?.mp hbenum
        rw [h1] at h2
        injection h2 with h2
        rw [h2]

/-- Witness for C4's amended theorem on the spec-§8 scenario log. -/
theorem top_quantile_spec_witness :
    top_n scenarioLog = max 1 (scenarioLog.length / 5) ∧
    (top_df scenarioLog).length = top_n scenarioLog ∧
    (∀ a ∈ top_df scenarioLog, scenarioLog[a.1]? = some a.2) ∧
    (∃ rest, scenarioLog.enum.Perm (top_df scenarioLog ++ rest) ∧
      ∀ a ∈ top_df scenarioLog, ∀ b ∈ rest,
        a.2.fitness < b.2.fitness ∨ (a.2.fitness = b.2.fitness ∧ a.1 < b.1)) :=
  top_quantile_spec scenarioLog (by simp [scenarioLog])

/-! ### Correlation analyzer (source lines 239-247) -/

/-- Sum of squared deviations from the mean, `Σ (x - x̄)²`: zero exactly
when the series is constant (or has fewer than two entries). -/
def sq_dev (xs : List ℚ) : ℚ :=
  (xs.map (fun x => (x - xs.sum / xs.length) ^ 2)).sum

/-- pandas Pearson correlation (source lines 246-247), embedded up to the
final square root: `r = Σ(x-x̄)(y-ȳ) / sqrt(Σ(x-x̄)² · Σ(y-ȳ)²)`.  The
result is `none` exactly when pandas yields NaN — a zero denominator,
i.e. either series constant or fewer than two observations — and otherwise
`some (num, den)` with `r = num / sqrt den`, which is exact in `ℚ`. -/
def pearsonCore (xs ys : List ℚ) : Option (ℚ × ℚ) :=
  if sq_dev xs = 0 ∨ sq_dev ys = 0 then none
  else some (((xs.zip ys).map (fun q =>
      (q.1 - xs.sum / xs.length) * (q.2 - ys.sum / ys.length))).sum,
    sq_dev xs * sq_dev ys)

/-- Source line 246: `corr_all = df[param_cols + ['fitness']].corr()['fitness']`
at parameter `p` — the full-log correlation of `p` with fitness. -/
def corr_all (log : Log) (p : String) : Option (ℚ × ℚ) :=
  pearsonCore (log.map (fun r => r.params p)) (fitnesses log)

/-- Source line 247: the same correlation over the best-quantile subset
`top_df`. -/
def corr_top (log : Log) (p : String) : Option (ℚ × ℚ) :=
  pearsonCore ((top_df log).map (fun a => a.2.params p))
    ((top_df log).map (fun a => a.2.fitness))

theorem sum_const_list {xs : List ℚ} {c : ℚ} (h : ∀ x ∈ xs, x = c) :
    xs.sum = xs.length * c := by
  induction xs with
  | nil => simp
  | cons a l ih =>
    simp only [List.sum_cons, List.length_cons]
    rw [h a (by simp), ih (fun x hx => h x (by simp [hx]))]
    push_cast
    ring

theorem sq_dev_eq_zero_of_const {xs : List ℚ} {c : ℚ} (h : ∀ x ∈ xs, x = c) :
    sq_dev xs = 0 := by
  cases hxs : xs with
  | nil => rfl
  | cons a l =>
    subst hxs
    apply List.sum_eq_zero
    intro y hy
    simp only [List.mem_map] at hy
    obtain ⟨x, hx, rfl⟩ := hy
    rw [h x hx, sum_const_list h]
    have hlen : (((a :: l).length : ℚ)) ≠ 0 := Nat.cast_ne_zero.mpr (by simp)
    field_simp

theorem mem_log_of_mem_top_df {log : Log} {a : Nat × EvalRecord}
    (ha : a ∈ top_df log) : a.2 ∈ log := by
  have hmem : a ∈ log.enum :=
    (List.mergeSort_perm log.enum nsmallestLe).mem_iff.mp (List.mem_of_mem_take ha)
  obtain ⟨i, r⟩ := a
  exact List.getElem?_mem (List.mk_mem_enum_iff_getElem?.mp hmem)

/-- C8: if a parameter's value is constant across the whole log, its
Pearson correlation with fitness is NaN (`none`) on the full set and on the
top-quantile subset alike, and the NaN is propagated as such rather than
coerced to 0 or any other value. -/
theorem corr_nan_of_const (log : Log) (p : String) (c : ℚ)
    (h : ∀ r ∈ log, r.params p = c) :
    corr_all log p = none ∧ corr_top log p = none := by
  constructor
  · unfold corr_all pearsonCore
    rw [if_pos]
    left
    apply sq_dev_eq_zero_of_const (c := c)
    intro x hx
    simp only [List.mem_map] at hx
    obtain ⟨r, hr, rfl⟩ := hx
    exact h r hr
  · unfold corr_top pearsonCore
    rw [if_pos]
    left
    apply sq_dev_eq_zero_of_const (c := c)
    intro x hx
    simp only [List.mem_map] at hx
    obtain ⟨a, ha, rfl⟩ := hx
    exact h a.2 (mem_log_of_mem_top_df ha)

/-- Witness for C8: on the scenario log every parameter is the constant
0.5, so both correlations are NaN. -/
theorem corr_nan_of_const_witness :
    corr_all scenarioLog "p" = none ∧ corr_top scenarioLog "p" = none :=
  corr_nan_of_const scenarioLog "p" 0.5 (by
    intro r hr
    simp only [scenarioLog, List.mem_cons, List.not_mem_nil, or_false] at hr
    rcases hr with rfl | rfl | rfl <;> rfl)

/-! ### The four analyzers as components, and the empty-log behavior -/

inductive AnalysisError where
  | insufficientData
deriving DecidableEq

/-- pandas `Series.median`: sort, then take the middle element (odd count)
or the mean of the two middle elements (even count); NaN on an empty
series. -/
def medianQ (xs : List ℚ) : Option ℚ :=
  let s := xs.mergeSort (fun a b => decide (a ≤ b))
  if xs.length = 0 then none
  else if xs.length % 2 = 1 then s[xs.length / 2]?
  else match s[xs.length / 2 - 1]?, s[xs.length / 2]? with
    | some a, some b => some ((a + b) / 2)
    | _, _ => none

structure ConvergenceStats where
  bestEval : Int
  bestFitness : ℚ
  worstFitness : Option ℚ
  meanFitness : Option ℚ
  meanLast20 : Option ℚ
  checkpoints : List (Nat × Option ℚ)
  verdict : ConvergenceVerdict

/-- Source lines 329-360, the convergence section as one analyzer: pandas
raises at line 330 (`idxmin` of an empty fitness series), embedded as
`insufficientData`; the remaining entries are the worst/mean/last-20
aggregates, the checkpoint lines and the half-split verdict. -/
def convergence_analysis (log : Log) : Except AnalysisError ConvergenceStats :=
  match best_row log with
  | none => .error .insufficientData
  | some r => .ok {
      bestEval := r.eval
      bestFitness := r.fitness
      worstFitness := (fitnesses log).max?
      meanFitness := meanQ (fitnesses log)
      meanLast20 := meanQ (fitnesses (last20 log))
      checkpoints := best_so_far_checkpoints log
      verdict := convergence_verdict log }

structure ParamRow where
  best : ℚ
  last20Mean : Option ℚ
  last20StdSq : Option ℚ
  normStdSq : Option ℚ
  status : String

/-- Source lines 153-194: one classification row for parameter `p`.
pandas raises at line 160 on an empty log (`idxmin`).  NaN comparisons are
false in Python, so a NaN `norm_std` falls through both threshold tests to
'narrowing', and a NaN `mean_last20` sets neither bound-hug flag.  The
thresholds 0.01 and 0.04 compare the carried variance where the source
compares the standard deviation against 0.10 and 0.20 — equivalent, both
sides being non-negative. -/
def classify_param (lo hi : ℚ) (log : Log) (p : String) : Except AnalysisError ParamRow :=
  let mean20 := meanQ ((last20 log).map (fun r => r.params p))
  let stdSq := std_last20_sq log p
  match classifier_best_val log p with
  | none => .error .insufficientData
  | some bv =>
    let nss := norm_std_sq lo hi log p
    let base := match nss with
      | none => "narrowing"
      | some v => if v < 0.01 then "converged"
        else if 0.04 < v then "exploring" else "narrowing"
    let hitMin := match mean20 with
      | none => false
      | some m => decide (m ≤ lo + 0.05 * (hi - lo))
    let hitMax := match mean20 with
      | none => false
      | some m => decide (hi - 0.05 * (hi - lo) ≤ m)
    .ok { best := bv, last20Mean := mean20, last20StdSq := stdSq, normStdSq := nss,
          status := if hitMin then base ++ " (hitting MIN)"
            else if hitMax then base ++ " (hitting MAX)" else base }

/-- The classification loop (source lines 152-194) over the parameter
columns; the per-row pandas raise aborts the whole analyzer. -/
def classifier_analysis (bounds : String → ℚ × ℚ) (log : Log) (ps : List String) :
    Except AnalysisError (List (String × ParamRow)) :=
  ps.mapM fun p => (classify_param (bounds p).1 (bounds p).2 log p).map fun row => (p, row)

structure QuarterStats where
  meanSurvSec : Option ℚ
  nCap : Nat
  pctCap : Option ℚ

/-- Source lines 374-379: one fixed position-quarter `df.iloc[a:b]` with
its mean survival and cap-hit rate; the rate is a numpy division that
yields NaN (not an exception) on an empty chunk, the source having
suppressed warnings at line 11. -/
def quarter_stats (maxTicks dt : ℚ) (log : Log) (a b : Nat) : QuarterStats :=
  let chunk := (log.drop a).take (b - a)
  let nCap := (chunk.filter (fun r => likely_hit_cap maxTicks r.fitness)).length
  { meanSurvSec := meanQ (chunk.map (fun r => approx_survival_sec dt r.fitness))
    nCap := nCap
    pctCap := if chunk.length = 0 then none
      else some (100 * (nCap : ℚ) / chunk.length) }

structure SurvivalStats where
  meanSec : Option ℚ
  medianSec : Option ℚ
  maxSec : Option ℚ
  minSec : Option ℚ
  nCapConservative : Nat
  nCapGenerous : Nat
  pctCapConservative : Option ℚ
  pctCapGenerous : Option ℚ
  quarters : List QuarterStats

/-- Source lines 101-145 and 362-379, the survival section as one
analyzer.  It never raises: on an empty log the aggregates are NaN (pandas
mean/median/max/min of an empty series) and the cap-hit percentages are
numpy divisions producing NaN under the source's suppressed warnings
(line 11), so the analyzer always returns `.ok`. -/
def survival_analysis (maxTicks dt : ℚ) (log : Log) : Except AnalysisError SurvivalStats :=
  let surv := log.map (fun r => approx_survival_sec dt r.fitness)
  let nCons := (log.filter (fun r => likely_hit_cap maxTicks r.fitness)).length
  let nGen := (log.filter (fun r => definitely_hit_cap_max_quality maxTicks r.fitness)).length
  .ok {
    meanSec := meanQ surv
    medianSec := medianQ surv
    maxSec := surv.max?
    minSec := surv.min?
    nCapConservative := nCons
    nCapGenerous := nGen
    pctCapConservative := if log.length = 0 then none
      else some (100 * (nCons : ℚ) / log.length)
    pctCapGenerous := if log.length = 0 then none
      else some (100 * (nGen : ℚ) / log.length)
    quarters := [quarter_stats maxTicks dt log 0 50, quarter_stats maxTicks dt log 50 100,
      quarter_stats maxTicks dt log 100 150, quarter_stats maxTicks dt log 150 200] }

/-- Source lines 239-247 as one analyzer: the correlation table never
raises — on an empty or degenerate log pandas produces NaN correlations
(`none` here), which are propagated as values, not errors. -/
def correlation_analysis (log : Log) (ps : List String) :
    Except AnalysisError (List (String × (Option (ℚ × ℚ)) × (Option (ℚ × ℚ)))) :=
  .ok (ps.map fun p => (p, corr_all log p, corr_top log p))

inductive LoadError where
  | missingColumn
  | unknownParameter
  | malformedValue
deriving DecidableEq

/-- Modelled from the spec: `EvaluationLog.load` (spec §4.2) is missing
from src — the source reads the log with `pd.read_csv` (line 14), which the
spec declares external plumbing (§1).  Following the spec's validation
order: (a) the required columns `eval` and `fitness` must be present in the
header; (b) every other header column must be a known parameter name;
(d) `eval` values must be unique, and records are sorted ascending by
`eval`.  Step (c), string-to-number parsing, belongs to the external
reader, so rows arrive here with parsed numeric fields.  An empty row list
is valid and loads as the empty log. -/
def load (known : List String) (header : List String) (rows : List EvalRecord) :
    Except LoadError Log :=
  if ¬ ("eval" ∈ header ∧ "fitness" ∈ header) then .error .missingColumn
  else if ¬ (∀ c ∈ header, c = "eval" ∨ c = "fitness" ∨ c ∈ known) then
    .error .unknownParameter
  else if ¬ rows.Pairwise (fun a b => a.eval ≠ b.eval) then .error .malformedValue
  else .ok (rows.mergeSort (fun a b => decide (a.eval ≤ b.eval)))

/-- C1 counterexample: on the empty log, not every analyzer reports an
`InsufficientDataError` — the survival estimator and the correlation
analyzer complete normally, returning NaN statistics (`none` fields), and
only the analyzers that perform the global-best lookup fail. -/
theorem empty_log_not_every_analyzer_errors_cex :
    survival_analysis 3000000 (1 / 60) [] =
      .ok { meanSec := none, medianSec := none, maxSec := none, minSec := none,
            nCapConservative := 0, nCapGenerous := 0, pctCapConservative := none,
            pctCapGenerous := none,
            quarters := [⟨none, 0, none⟩, ⟨none, 0, none⟩,
              ⟨none, 0, none⟩, ⟨none, 0, none⟩] } ∧
    correlation_analysis [] ["p"] = .ok [("p", none, none)] := by
  constructor
  · rfl
  · simp only [correlation_analysis, List.map_cons, List.map_nil, corr_all, corr_top,
      top_df, List.enum_nil, List.mergeSort_nil, List.take_nil, List.map_nil, fitnesses]
    rfl

/-- C1 amended: loading an empty log succeeds (spec-modelled loader); the
global-best lookup (`idxmin` / `best_row`) on the empty log errors rather
than returning a value, so the convergence analyzer and the per-parameter
classifier — which both perform it — report `insufficientData`; the
survival and correlation analyzers never consult the global best and
complete with NaN aggregates instead of erroring. -/
theorem empty_log_behavior :
    load ["p"] ["eval", "fitness", "p"] [] = .ok [] ∧
    idxmin (fitnesses []) = none ∧
    best_row [] = none ∧
    convergence_analysis [] = .error .insufficientData ∧
    classifier_analysis (fun _ => (0, 1)) [] ["p"] = .error .insufficientData ∧
    (survival_analysis 3000000 (1 / 60) []).isOk = true ∧
    (correlation_analysis [] ["p"]).isOk = true := by
  refine ⟨?_, rfl, rfl, rfl, rfl, rfl, rfl⟩
  simp only [load, List.mergeSort_nil]
  norm_num

/-! ### The full report (source lines 317-461) and determinism -/

/-- Source lines 444-454: the best-config block's implied
survival/quality: when the best fitness implies the cap was hit
(`-fitness >= maxTicks`) it solves for the implied quality, clamped to
`[0, 1]`; otherwise it reports the approximate tick count. -/
inductive BestImplied where
  | hitCap (quality : ℚ)
  | survived (ticks : ℚ)

def best_implied (maxTicks f : ℚ) : BestImplied :=
  if maxTicks ≤ -f then .hitCap (min (max ((-f / maxTicks - 1) / 0.2) 0) 1)
  else .survived (-f / 1.1)

/-- The aggregate result object (spec §4.7): the outputs of the four
analyzers plus the best-evaluation blocks.  The printed ranking and text
formatting are display concerns downstream of these values. -/
structure AnalysisReport where
  convergence : Except AnalysisError ConvergenceStats
  survival : Except AnalysisError SurvivalStats
  classification : Except AnalysisError (List (String × ParamRow))
  correlations : Except AnalysisError (List (String × (Option (ℚ × ℚ)) × (Option (ℚ × ℚ))))
  newParamShifts : List (String × Option ℚ)
  bestConfig : List (String × Option (ℚ × ℚ))
  bestImplied : Option BestImplied

/-- The whole analysis (source lines 317-461) as a pure aggregation of the
analyzers (§4.7): a function of the log and the configuration — bounds,
defaults, cap, tick length and the parameter lists — and of nothing else. -/
def full_report (bounds : String → ℚ × ℚ) (dflt : String → ℚ) (maxTicks dt : ℚ)
    (newParams ps : List String) (log : Log) : AnalysisReport :=
  { convergence := convergence_analysis log
    survival := survival_analysis maxTicks dt log
    classification := classifier_analysis bounds log ps
    correlations := correlation_analysis log ps
    newParamShifts := newParams.map fun p =>
      (p, new_param_shift (bounds p).1 (bounds p).2 (dflt p) log p)
    bestConfig := ps.map fun p => (p, best_config_entry (bounds p).1 (bounds p).2 log p)
    bestImplied := (best_row log).map fun r => best_implied maxTicks r.fitness }

/-- C9: the analysis is deterministic — the report is a pure function of
the immutable log and the configuration, with no randomness and no hidden
mutable state, so running it twice on the same log yields identical
values for every component of the report. -/
theorem analysis_deterministic (bounds : String → ℚ × ℚ) (dflt : String → ℚ)
    (maxTicks dt : ℚ) (newParams ps : List String) (log : Log) :
    full_report bounds dflt maxTicks dt newParams ps log =
      full_report bounds dflt maxTicks dt newParams ps log := rfl
